import Mathlib

/-!
Verification of the `peterju/webdata` link-checker scripts.

This file shallowly embeds the two crawler scripts of the repository,
`src/testurl.py` and `src/chklink.py`, as executable Lean functions and
proves / refutes the frozen specification claims about them.

Modelling conventions:
* Python's cooperative `asyncio` execution is modelled sequentially; the
  scripts never suspend between a visited-set lookup and its update, so the
  sequential model has the same per-URL behaviour.
* The network, the `lxml` HTML parser and the Python codecs are external
  collaborators; they are supplied as oracles in a `World` record:
  `net url k` is what the `k`-th `session.get(url)` of the run does,
  `links body` is the ordered list of raw href/src attribute values the
  parser extracts from `body` (or a parse exception), and
  `codec enc raw` is `raw.decode(enc)` (`none` = `UnicodeDecodeError`).
* Python exceptions become explicit `Except` values; an uncaught exception
  propagates as `.error`.
* Heterogeneous Python values (an `int` status stored where a `str` is also
  stored) are modelled by the `PyVal` sum, with Python `==` as `pyEq`.
* Each state carries an `attempts` log recording every network round trip
  (every `session.get` call), used to state at-most-once-fetch claims.
-/

set_option synthInstance.maxSize 1000

namespace WebData

/-- A dynamically typed Python value as stored in the scripts' dictionaries:
either a string or an integer. -/
inductive PyVal where
  | pstr : String → PyVal
  | pint : Int → PyVal
deriving DecidableEq, Repr

/-- Python `==` on such values: values of different runtime types are never
equal (no coercion between `str` and `int`). -/
def pyEq : PyVal → PyVal → Bool
  | .pstr a, .pstr b => a == b
  | .pint a, .pint b => a == b
  | _, _ => false

/-- What one `session.get(url)` round trip does: either a response arrives
(with HTTP status, Content-Type header, raw body bytes and the decoded text
that `response.text()` would yield), or the request times out
(`asyncio.TimeoutError`, whose `str(e)` is `msg`), or a client-side error is
raised (`aiohttp.ClientError` / `ConnectionResetError` etc., `str(e) = msg`). -/
inductive FetchEvent where
  | response : Nat → String → List Nat → String → FetchEvent
  | timeout : String → FetchEvent
  | clientError : String → FetchEvent
deriving DecidableEq, Repr

/-- The external collaborators: network, HTML parser, character codecs. -/
structure World where
  net : String → Nat → FetchEvent
  links : String → Except String (List String)
  codec : String → List Nat → Option String

/-- Association-list lookup, modelling Python `dict` indexing /
`key in dict`. -/
def lookupA {α : Type} : List (String × α) → String → Option α
  | [], _ => none
  | (k, v) :: rest, key => if k == key then some v else lookupA rest key

/-- Association-list update, modelling Python `dict[key] = value`. -/
def setA {α : Type} : List (String × α) → String → α → List (String × α)
  | [], key, value => [(key, value)]
  | (k, v) :: rest, key, value =>
      if k == key then (k, value) :: rest else (k, v) :: setA rest key value

theorem lookupA_setA_self {α : Type} (m : List (String × α)) (k : String) (v : α) :
    lookupA (setA m k v) k = some v := by
  induction m with
  | nil => simp [setA, lookupA]
  | cons p rest ih =>
      obtain ⟨k', v'⟩ := p
      by_cases h : k' = k
      · simp [setA, lookupA, h]
      · simp [setA, lookupA, h, ih]

theorem lookupA_setA_ne {α : Type} (m : List (String × α)) (k k' : String) (v : α)
    (h : k ≠ k') : lookupA (setA m k v) k' = lookupA m k' := by
  induction m with
  | nil =>
      have h' : ¬ (k = k') := h
      simp [setA, lookupA, h']
  | cons p rest ih =>
      obtain ⟨a, b⟩ := p
      by_cases ha : a = k
      · subst ha
        have h' : ¬ (a = k') := h
        simp [setA, lookupA, h']
      · simp [setA, lookupA, ha, ih]

theorem lookupA_setA_isSome {α : Type} (m : List (String × α)) (k k' : String) (v : α)
    (h : (lookupA m k').isSome) : (lookupA (setA m k v) k').isSome := by
  by_cases hk : k = k'
  · subst hk; simp [lookupA_setA_self]
  · rwa [lookupA_setA_ne m k k' v hk]

/-- Structural character-list model of `str.startswith(p)`
(the Lean core `String.startsWith` does not reduce in the kernel). -/
def strStarts (s p : String) : Bool :=
  p.toList.isPrefixOf s.toList

/-- The characters following the first `"://"`, if any. -/
def afterScheme : List Char → Option (List Char)
  | [] => none
  | ':' :: '/' :: '/' :: rest => some rest
  | _ :: rest => afterScheme rest

/-- The characters before the first `/`. -/
def takeUntilSlash : List Char → List Char
  | [] => []
  | c :: rest => if c = '/' then [] else c :: takeUntilSlash rest

/-- Modelled from `urllib.parse.urlparse(u).netloc` (standard library,
external collaborator): the authority component of an absolute URL, i.e. the
text between `"://"` and the next `/`. -/
def modeledNetloc (u : String) : String :=
  match afterScheme u.toList with
  | some rest => String.mk (takeUntilSlash rest)
  | none => ""

/-- Everything up to and including the last `/` of a URL string; helper for
relative-reference resolution. -/
def dropLastSegment (s : String) : String :=
  String.mk ((s.toList.reverse.dropWhile (fun c => c ≠ '/')).reverse)

/-- Whether a reference carries its own `scheme://` part. -/
def hasNetScheme (s : String) : Bool :=
  (afterScheme s.toList).isSome

/-- Modelled from `urllib.parse.urljoin(base, ref)` (standard library,
external collaborator), restricted to the reference shapes the scripts
exercise: empty references resolve to the base, scheme-carrying references
(`http(s)://`, `javascript:`, `mailto:`, `data:`) resolve to themselves,
fragment references are appended to the (fragment-free) base, and relative
references replace the last path segment of the base. -/
def modeledUrljoin (base ref : String) : String :=
  if ref == "" then base
  else if hasNetScheme ref || strStarts ref "javascript:" || strStarts ref "mailto:"
      || strStarts ref "data:" then ref
  else if strStarts ref "#" then base ++ ref
  else if strStarts ref "/" then "https://" ++ modeledNetloc base ++ ref
  else dropLastSegment base ++ ref

example : modeledUrljoin "https://example.test/" "https://example.test/a"
    = "https://example.test/a" := by decide

example : modeledUrljoin "http://s.test/" "a" = "http://s.test/a" := by decide

example : modeledNetloc "https://example.test/a" = "example.test" := by decide

/-- The result triple of `testurl.fetch`:
`(html_text, url-as-stored, error_message)`.  The middle component is the
`url` value the function places in position 1 of the tuple, kept as a
`PyVal` because `main` later compares it with the integer `200`. -/
abbrev FetchResult := Option String × PyVal × Option String

/-- A row of `testurl.check_links`' result list:
`(depth + 1, parent_url, invalid_link, error_message)`.  The parent slot is
an `Option String` because `find_links` can return `None` in that position. -/
abbrev Entry := Nat × Option String × String × String

namespace Testurl

/-- The mutable module-level state of `testurl.py`: the `scanned_urls`
result cache, plus an instrumentation log of every network round trip
(every `session.get` actually issued). -/
structure TState where
  scanned : List (String × FetchResult)
  attempts : List String
deriving DecidableEq, Repr

/-- Fresh start state of `testurl.py` (empty `scanned_urls`, no fetches). -/
def initT : TState := ⟨[], []⟩

/-- The ordered candidate encodings of `testurl.fetch`:
`for encoding in ['utf-8', 'gbk', 'big5']`. -/
def encodingCandidates : List String := ["utf-8", "gbk", "big5"]

/-- The decode loop of `testurl.fetch` (lines 34-44): try each candidate
encoding in order on the same raw bytes; the first that decodes without
`UnicodeDecodeError` wins. -/
def tryDecode (codec : String → List Nat → Option String) :
    List String → List Nat → Option String
  | [], _ => none
  | e :: rest, raw =>
      match codec e raw with
      | some t => some t
      | none => tryDecode codec rest raw

/-- Model of `testurl.fetch` (lines 14-58).  Returns the updated state and either the
result tuple or an uncaught exception: the cache is consulted first; on a
200 response the body is decoded via `tryDecode`; a non-200 status yields
the error string `"HTTP 狀態 <status>"`; an `aiohttp.ClientError` is caught
and recorded; a timeout (`asyncio.TimeoutError`) is **not** a `ClientError`
and escapes as `.error` without anything being written to the cache. -/
def fetch (w : World) (st : TState) (url : String) :
    TState × Except String FetchResult :=
  match lookupA st.scanned url with
  | some r => (st, .ok r)
  | none =>
      let k := st.attempts.count url
      let st := { st with attempts := st.attempts ++ [url] }
      match w.net url k with
      | .response status _ raw _ =>
          if status == 200 then
            match tryDecode w.codec encodingCandidates raw with
            | some htmlText =>
                let r : FetchResult := (some htmlText, .pstr url, none)
                ({ st with scanned := setA st.scanned url r }, .ok r)
            | none =>
                let r : FetchResult := (none, .pstr url, some "無法解碼內容")
                ({ st with scanned := setA st.scanned url r }, .ok r)
          else
            let r : FetchResult := (none, .pstr url, some ("HTTP 狀態 " ++ toString status))
            ({ st with scanned := setA st.scanned url r }, .ok r)
      | .timeout m => (st, .error m)
      | .clientError m =>
          let r : FetchResult := (none, .pstr url, some m)
          ({ st with scanned := setA st.scanned url r }, .ok r)

/-- The crawlability test of `testurl.find_links` (line 96), applied to the
already-joined URL: reject it when it starts with `#`, `javascript`,
`mailto` or `data:image`. -/
def crawlable (u : String) : Bool :=
  !(strStarts u "#" || strStarts u "javascript" || strStarts u "mailto"
      || strStarts u "data:image")

/-- Placeholder message for the (unreachable in this model) call
`html.fromstring(None)`, which would raise a `ValueError` caught by
`find_links`' blanket `except`. -/
def fromstringNoneMsg : String := "ValueError: fromstring on None"

/-- Model of `testurl.find_links` (lines 61-104).  Returns
`(links_with_sublinks, links_without_sublinks, third)` where `third` is the
base URL on success, the error message on failure, or `None` at the depth
guard; the whole body sits in a `try/except Exception`, so an exception
raised by the inner `fetch` (a timeout) is caught here and turned into the
`(None, [], str(e))` shape. -/
def find_links (w : World) (st : TState) (url base_url : String) (depth maxd : Nat) :
    TState × (Option (List String) × List String × Option String) :=
  if maxd ≤ depth then (st, (some [], [], none))
  else if modeledNetloc url != modeledNetloc base_url then
    match fetch w st url with
    | (st, .ok res) => (st, (some [], [], res.2.2))
    | (st, .error e) => (st, (none, [], some e))
  else
    match fetch w st url with
    | (st, .error e) => (st, (none, [], some e))
    | (st, .ok (htmlOpt, _, errMsg)) =>
        match errMsg with
        | some m => (st, (none, [], some m))
        | none =>
            match htmlOpt with
            | none => (st, (none, [], some fromstringNoneMsg))
            | some body =>
                match w.links body with
                | .error e => (st, (none, [], some e))
                | .ok raws =>
                    let resolved := raws.map (modeledUrljoin base_url)
                    (st, (some (resolved.filter crawlable),
                          resolved.filter (fun u => !(crawlable u)),
                          some base_url))

/-- The first loop of `testurl.check_links` (lines 140-143): fetch each
child link directly and append `(depth + 1, parent_url, link, error_message)`
when the fetch reports an error.  A fetch that *raises* (timeout) is not
protected by any `try` here and propagates as `.error`. -/
def checkChildren (w : World) (depth : Nat) (parent : Option String) :
    TState → List String → TState × Except String (List Entry)
  | st, [] => (st, .ok [])
  | st, l :: rest =>
      match fetch w st l with
      | (st, .error e) => (st, .error e)
      | (st, .ok (_, _, errMsg)) =>
          match checkChildren w depth parent st rest with
          | (st, .error e) => (st, .error e)
          | (st, .ok es) =>
              match errMsg with
              | some m => (st, .ok ((depth + 1, parent, l, m) :: es))
              | none => (st, .ok es)

/-- The second loop of `testurl.check_links` (lines 146-147): recurse into
each child at `depth + 1`, threading the shared `visited_urls` set and
extending the accumulated entry list; an escaping exception aborts the loop. -/
def recurseChildren
    (f : TState → List String → String → TState × List String × Except String (List Entry)) :
    TState → List String → List String → TState × List String × Except String (List Entry)
  | st, visited, [] => (st, visited, .ok [])
  | st, visited, l :: rest =>
      match f st visited l with
      | (st, visited, .error e) => (st, visited, .error e)
      | (st, visited, .ok es) =>
          match recurseChildren f st visited rest with
          | (st, visited, .error e) => (st, visited, .error e)
          | (st, visited, .ok more) => (st, visited, .ok (es ++ more))

/-- Model of `testurl.check_links` (lines 107-149), with the module constant
`MAX_DEPTH` as the parameter `maxd` and an explicit recursion fuel (the
Python recursion depth is bounded by `maxd - depth`, so any fuel larger
than `maxd` computes the same result).  Returns the updated state, the
updated `visited_urls` set and the invalid-link entries (or an uncaught
exception). -/
def check_links (w : World) : Nat → TState → String → Nat → Nat → List String →
    TState × List String × Except String (List Entry)
  | 0, st, _, _, _, visited => (st, visited, .ok [])
  | Nat.succ n, st, url, depth, maxd, visited =>
      if maxd ≤ depth then (st, visited, .ok [])
      else if url ∈ visited then (st, visited, .ok [])
      else
        let visited := visited ++ [url]
        match find_links w st url url depth maxd with
        | (st, (none, _, _)) => (st, visited, .ok [])
        | (st, (some linksWith, _, parent)) =>
            match checkChildren w depth parent st linksWith with
            | (st, .error e) => (st, visited, .error e)
            | (st, .ok entries) =>
                match recurseChildren
                    (fun st visited l => check_links w n st l (depth + 1) maxd visited)
                    st visited linksWith with
                | (st, visited, .error e) => (st, visited, .error e)
                | (st, visited, .ok more) => (st, visited, .ok (entries ++ more))

/-- The seed loop of `testurl.main` (lines 204-210): run `check_links` on
each seed URL with a fresh `visited_urls` set, over the shared module state;
an exception escaping `check_links` aborts the run. -/
def runMain (w : World) (fuel maxd : Nat) :
    TState → List String → TState × Except String (List (String × List Entry))
  | st, [] => (st, .ok [])
  | st, url :: rest =>
      match check_links w fuel st url 0 maxd [] with
      | (st, _, .error e) => (st, .error e)
      | (st, _, .ok es) =>
          match runMain w fuel maxd st rest with
          | (st, .error e) => (st, .error e)
          | (st, .ok out) => (st, .ok ((url, es) :: out))

/-- The warm-cache filter of `testurl.main` (line 213):
`{url: result for url, result in scanned_urls.items() if result[1] == 200}`,
with Python `==` on the heterogeneous `result[1]`. -/
def validUrls (scanned : List (String × FetchResult)) : List (String × FetchResult) :=
  scanned.filter (fun p => pyEq p.2.2.1 (.pint 200))

end Testurl

namespace Chklink

/-- A value of `chklink.py`'s `error_links` dictionary:
`{"掃描層數": depth, "網址": url, "失效連結": target,
"回應狀態碼或錯誤原因": reason}`. -/
structure KErr where
  scanDepth : Nat
  url : String
  target : String
  reason : String
deriving DecidableEq, Repr

/-- The module-level state of `chklink.py`: the `visited_links` and
`error_links` dictionaries, plus the instrumentation log of every
`session.get` round trip. -/
structure KState where
  visited_links : List (String × PyVal)
  error_links : List (String × KErr)
  attempts : List String
deriving DecidableEq, Repr

/-- Fresh start state of `chklink.py`. -/
def initK : KState := ⟨[], [], []⟩

/-- The child-link test of `chklink.check_link` (line 35), applied to the
**raw** attribute value before joining:
`link_url and not link_url.startswith(('http', '#', 'javascript', 'mailto', 'data:image'))`. -/
def follows (raw : String) : Bool :=
  !(raw == "") && !(strStarts raw "http" || strStarts raw "#"
      || strStarts raw "javascript" || strStarts raw "mailto"
      || strStarts raw "data:image")

/-- The child loop of `chklink.check_link` (lines 33-37): for each raw
attribute value that passes `follows`, join it against the current page URL
and run the continuation (the recursive `check_link`) on it. -/
def processKids (f : KState → String → KState) (url : String) :
    KState → List String → KState
  | st, [] => st
  | st, raw :: rest =>
      let st := if follows raw then f st (modeledUrljoin url raw) else st
      processKids f url st rest

/-- Model of `chklink.check_link` (lines 16-59), with explicit fuel bounding the
recursion (the Python recursion is bounded only by the visited set, so any
fuel larger than the number of reachable URLs computes the same result).
The visited check precedes the `try`, the status is recorded as an `int`,
only `text/html` 200 pages are expanded, a timeout with `retries > 0`
re-invokes `check_link` on the same URL, the `except` arms record an
`error_links` row and overwrite `visited_links[url]` with the message, and
the `finally` overwrites `visited_links[url]` with `"Depth Limit Reached"`
whenever `depth >= max_depth`. -/
def check_link (w : World) : Nat → KState → String → Nat → Nat → Nat → KState
  | 0, st, _, _, _, _ => st
  | Nat.succ n, st, url, depth, retries, maxd =>
      if (lookupA st.visited_links url).isSome then st
      else
        let st := { st with visited_links := setA st.visited_links url (.pstr "Processing") }
        let k := st.attempts.count url
        let st := { st with attempts := st.attempts ++ [url] }
        let st1 :=
          match w.net url k with
          | .response status contentType _ text =>
              let st := { st with visited_links := setA st.visited_links url (.pint status) }
              if status == 200 && strStarts contentType "text/html" then
                match w.links text with
                | .ok raws =>
                    processKids (fun st u => check_link w n st u (depth + 1) retries maxd)
                      url st raws
                | .error e =>
                    let st := { st with
                      error_links := setA st.error_links url ⟨depth, url, url, e⟩ }
                    { st with visited_links := setA st.visited_links url (.pstr e) }
              else st
          | .timeout _ =>
              if 0 < retries then check_link w n st url depth (retries - 1) maxd
              else
                let st := { st with
                  error_links := setA st.error_links url ⟨depth, url, url, "Timeout Error"⟩ }
                { st with visited_links := setA st.visited_links url (.pstr "Timeout Error") }
          | .clientError m =>
              let st := { st with
                error_links := setA st.error_links url ⟨depth, url, url, m⟩ }
              { st with visited_links := setA st.visited_links url (.pstr m) }
        if maxd ≤ depth then
          { st1 with visited_links := setA st1.visited_links url (.pstr "Depth Limit Reached") }
        else st1

/-- Model of `chklink.main` (lines 62-65): run `check_link` on every seed with
`depth = 0` and the default `retries = 3`, over the shared module state
(`asyncio.gather` is modelled sequentially; the visited check and its
update enclose no suspension point). -/
def runChkMain (w : World) (fuel maxd : Nat) (seeds : List String) : KState :=
  seeds.foldl (fun st u => check_link w fuel st u 0 3 maxd) initK

end Chklink

/-! ### Concrete scenario worlds -/

deriving instance DecidableEq for Except

/-- Network for the spec's 404 scenario: the seed page is 200 with two
links, `/a` is 200 and `/missing` is 404. -/
def netA : String → Nat → FetchEvent := fun u _ =>
  if u == "https://example.test/" then .response 200 "text/html" [83] "S"
  else if u == "https://example.test/a" then .response 200 "text/html" [65] "A"
  else if u == "https://example.test/missing" then .response 404 "text/html" [] ""
  else .clientError "no route"

/-- Parser oracle for the 404 scenario: the seed body links to `/a` and
`/missing`; every other body has no links. -/
def linksA : String → Except String (List String) := fun body =>
  if body == "S" then .ok ["https://example.test/a", "https://example.test/missing"]
  else .ok []

/-- Codec oracle for the 404 scenario: plain ASCII bodies decode as UTF-8. -/
def codecA : String → List Nat → Option String := fun enc raw =>
  if enc == "utf-8" then
    (if raw == [83] then some "S" else if raw == [65] then some "A" else some "")
  else none

/-- The 404-scenario world. -/
def worldA : World := ⟨netA, linksA, codecA⟩

/-- Network in which seed one times out on its first fetch and responds on
its second, and seed two's page links back to seed one. -/
def netB : String → Nat → FetchEvent := fun u k =>
  if u == "https://one.test/" then
    (if k == 0 then .timeout "" else .response 200 "text/html" [88] "X1")
  else if u == "https://two.test/" then .response 200 "text/html" [89] "S2B"
  else .clientError "no route"

/-- Parser oracle: seed two's body links to seed one. -/
def linksB : String → Except String (List String) := fun body =>
  if body == "S2B" then .ok ["https://one.test/"] else .ok []

/-- Codec oracle for `worldB`. -/
def codecB : String → List Nat → Option String := fun enc raw =>
  if enc == "utf-8" then
    (if raw == [88] then some "X1" else if raw == [89] then some "S2B" else some "")
  else none

/-- World in which a timed-out seed is reachable again from the other seed. -/
def worldB : World := ⟨netB, linksB, codecB⟩

/-- Network for a same-origin chain `/ → /a → /b → /c` whose last page
raises a client error. -/
def netC : String → Nat → FetchEvent := fun u _ =>
  if u == "http://s.test/" then .response 200 "text/html" [] "C0"
  else if u == "http://s.test/a" then .response 200 "text/html" [] "C1"
  else if u == "http://s.test/b" then .response 200 "text/html" [] "C2"
  else .clientError "boom"

/-- Parser oracle for the chain world: each body links one step deeper. -/
def linksC : String → Except String (List String) := fun body =>
  if body == "C0" then .ok ["a"]
  else if body == "C1" then .ok ["b"]
  else if body == "C2" then .ok ["c"]
  else .ok []

/-- World with a four-deep same-origin chain. -/
def worldC : World := ⟨netC, linksC, fun _ _ => none⟩

/-- Network for the retry stub: the URL times out on its first attempt and
would respond 200 on a second attempt. -/
def netD : String → Nat → FetchEvent := fun u k =>
  if u == "http://t.test/" then
    (if k == 0 then .timeout "" else .response 200 "text/html" [] "")
  else .clientError "no route"

/-- World for the retry stub (times out once, then succeeds). -/
def worldD : World := ⟨netD, fun _ => .ok [], fun _ _ => none⟩

/-- Network for the cross-origin worlds: a seed on `seed.test` links to a
page on `other.test` which links to a broken URL on `other.test`; a second
seed on `k.test` links (by absolute reference) to `other.test`. -/
def netE : String → Nat → FetchEvent := fun u _ =>
  if u == "https://seed.test/" then .response 200 "text/html" [1] "SB"
  else if u == "https://other.test/x" then .response 200 "text/html" [2] "XB"
  else if u == "https://other.test/bad" then .response 404 "text/html" [] ""
  else if u == "http://k.test/" then .response 200 "text/html" [3] "KB"
  else .clientError "no route"

/-- Parser oracle for the cross-origin worlds. -/
def linksE : String → Except String (List String) := fun body =>
  if body == "SB" then .ok ["https://other.test/x"]
  else if body == "XB" then .ok ["https://other.test/bad"]
  else if body == "KB" then .ok ["http://other.test/x"]
  else .ok []

/-- Codec oracle for the cross-origin worlds. -/
def codecE : String → List Nat → Option String := fun enc raw =>
  if enc == "utf-8" then
    (if raw == [1] then some "SB" else if raw == [2] then some "XB"
     else if raw == [3] then some "KB" else some "")
  else none

/-- The cross-origin world. -/
def worldE : World := ⟨netE, linksE, codecE⟩

/-- Network in which the seed page is fine but its single child times out. -/
def netF : String → Nat → FetchEvent := fun u _ =>
  if u == "https://h.test/" then .response 200 "text/html" [4] "HB"
  else if u == "https://h.test/t" then .timeout "to"
  else .clientError "no route"

/-- World in which a directly checked child link times out. -/
def worldF : World :=
  ⟨netF,
   fun body => if body == "HB" then .ok ["https://h.test/t"] else .ok [],
   fun enc raw => if enc == "utf-8" && raw == [4] then some "HB" else none⟩

/-- World for the warm-cache run: the network refuses everything, so any
successful visit must have come from the preloaded cache. -/
def worldG : World :=
  ⟨fun _ _ => .clientError "network must not be touched",
   fun body => if body == "B" then .ok [] else .ok [],
   fun _ _ => none⟩

/-- Module state as `testurl.py` builds it when `scanned_urls.yaml` already
holds a record for `https://warm.test/` from a previous run. -/
def warmState : Testurl.TState :=
  ⟨[("https://warm.test/", (some "B", .pstr "https://warm.test/", none))], []⟩

/-- World for the decode-fallback witness: the body bytes `[255]` fail
UTF-8 decoding but decode as `"G"` under GBK. -/
def worldH : World :=
  ⟨fun u _ => if u == "http://enc.test/" then .response 200 "text/html" [255] "" else .clientError "no route",
   fun _ => .ok [],
   fun enc raw =>
     if raw == [255] then (if enc == "gbk" then some "G" else none) else none⟩

/-- Network where the seed's first child raises a client error and the
second is a 404: sibling traversal must continue past the first failure. -/
def netI : String → Nat → FetchEvent := fun u _ =>
  if u == "https://i.test/" then .response 200 "text/html" [5] "IB"
  else if u == "https://i.test/b1" then .clientError "refused"
  else if u == "https://i.test/b2" then .response 404 "text/html" [] ""
  else .clientError "no route"

/-- World with two failing sibling children. -/
def worldI : World :=
  ⟨netI,
   fun body => if body == "IB" then .ok ["https://i.test/b1", "https://i.test/b2"] else .ok [],
   fun enc raw => if enc == "utf-8" && raw == [5] then some "IB" else none⟩

/-- Network for the chklink 404-child scenario: the seed links (relatively)
to a missing page. -/
def netK : String → Nat → FetchEvent := fun u _ =>
  if u == "http://s3.test/" then .response 200 "text/html" [] "K3"
  else if u == "http://s3.test/missing" then .response 404 "text/html" [] ""
  else .clientError "no route"

/-- World for the chklink 404-child scenario. -/
def worldK : World :=
  ⟨netK, fun body => if body == "K3" then .ok ["missing"] else .ok [], fun _ _ => none⟩

/-! ### Generic lemmas about `testurl.py` -/

/-- No fetch of this world's network ever times out. -/
def noTimeout (w : World) : Prop :=
  ∀ u k m, w.net u k ≠ .timeout m

namespace Testurl

/-- Complete case analysis of one `fetch` call: either the cache answers and
nothing changes, or the request times out (one attempt is logged, nothing is
cached, the exception escapes), or the request completes (one attempt is
logged and a result whose middle component is `.pstr url` is cached and
returned). -/
theorem fetch_cases (w : World) (st : TState) (url : String) :
    (∃ r, lookupA st.scanned url = some r ∧ fetch w st url = (st, .ok r))
    ∨ (∃ m, lookupA st.scanned url = none
        ∧ w.net url (st.attempts.count url) = .timeout m
        ∧ fetch w st url = ({ st with attempts := st.attempts ++ [url] }, .error m))
    ∨ (∃ a c, lookupA st.scanned url = none
        ∧ fetch w st url =
            ({ scanned := setA st.scanned url (a, .pstr url, c),
               attempts := st.attempts ++ [url] }, .ok (a, .pstr url, c))) := by
  cases hl : lookupA st.scanned url with
  | some r =>
      left
      exact ⟨r, rfl, by simp [fetch, hl]⟩
  | none =>
      right
      cases hn : w.net url (st.attempts.count url) with
      | response status ct raw text =>
          right
          by_cases hs : status == 200
          · cases hd : tryDecode w.codec encodingCandidates raw with
            | some t =>
                exact ⟨some t, none, rfl, by simp [fetch, hl, hn, hs, hd]⟩
            | none =>
                exact ⟨none, some "無法解碼內容", rfl, by simp [fetch, hl, hn, hs, hd]⟩
          · exact ⟨none, some ("HTTP 狀態 " ++ toString status), rfl,
              by simp [fetch, hl, hn, hs]⟩
      | timeout m =>
          left
          exact ⟨m, rfl, rfl, by simp [fetch, hl, hn]⟩
      | clientError m =>
          right
          exact ⟨none, some m, rfl, by simp [fetch, hl, hn]⟩

/-- The state returned by `find_links` is the state of its inner `fetch`
(or the input state at the depth guard). -/
theorem find_links_state (w : World) (st : TState) (url base_url : String)
    (depth maxd : Nat) :
    (find_links w st url base_url depth maxd).1 = st
    ∨ (find_links w st url base_url depth maxd).1 = (fetch w st url).1 := by
  unfold find_links
  by_cases hg : maxd ≤ depth
  · left; simp [hg]
  · right
    simp only [hg, if_false]
    cases hf : fetch w st url with
    | mk st' r =>
        cases r with
        | error e =>
            by_cases ho : modeledNetloc url != modeledNetloc base_url <;>
              simp [ho, hf]
        | ok res =>
            obtain ⟨a, b, c⟩ := res
            by_cases ho : modeledNetloc url != modeledNetloc base_url
            · simp [ho, hf]
            · cases c with
              | some m => simp [ho, hf]
              | none =>
                  cases a with
                  | none => simp [ho, hf]
                  | some body => cases hlk : w.links body <;> simp [ho, hf, hlk]

/-- Any state predicate preserved by `fetch` is preserved by `find_links`. -/
theorem find_links_pres (w : World) (P : TState → Prop)
    (hf : ∀ st u, P st → P ((fetch w st u).1))
    (st : TState) (url base_url : String) (depth maxd : Nat) (h : P st) :
    P ((find_links w st url base_url depth maxd).1) := by
  rcases find_links_state w st url base_url depth maxd with he | he <;> rw [he]
  · exact h
  · exact hf st url h

/-- Any state predicate preserved by `fetch` is preserved by the direct
child-check loop. -/
theorem checkChildren_pres (w : World) (P : TState → Prop)
    (hf : ∀ st u, P st → P ((fetch w st u).1)) (depth : Nat) (parent : Option String) :
    ∀ ls st, P st → P ((checkChildren w depth parent st ls).1) := by
  intro ls
  induction ls with
  | nil => intro st h; simpa [checkChildren] using h
  | cons l rest ih =>
      intro st h
      have h1 : P ((fetch w st l).1) := hf st l h
      rcases hfe : fetch w st l with ⟨st1, r1⟩
      rw [hfe] at h1
      cases r1 with
      | error e => simp [checkChildren, hfe]; exact h1
      | ok res =>
          obtain ⟨a, b, c⟩ := res
          have h2 := ih st1 h1
          rcases hcc : checkChildren w depth parent st1 rest with ⟨st2, r2⟩
          rw [hcc] at h2
          cases r2 with
          | error e => simpa [checkChildren, hfe, hcc] using h2
          | ok es => cases c <;> simpa [checkChildren, hfe, hcc] using h2

/-- Any state predicate preserved by the loop body is preserved by the
recursive child loop. -/
theorem recurseChildren_pres (P : TState → Prop)
    (f : TState → List String → String → TState × List String × Except String (List Entry))
    (hf : ∀ st v l, P st → P ((f st v l).1)) :
    ∀ ls st v, P st → P ((recurseChildren f st v ls).1) := by
  intro ls
  induction ls with
  | nil => intro st v h; simpa [recurseChildren] using h
  | cons l rest ih =>
      intro st v h
      have h1 : P ((f st v l).1) := hf st v l h
      rcases hfe : f st v l with ⟨st1, v1, r1⟩
      rw [hfe] at h1
      cases r1 with
      | error e => simpa [recurseChildren, hfe] using h1
      | ok es =>
          have h2 := ih st1 v1 h1
          rcases hrc : recurseChildren f st1 v1 rest with ⟨st2, v2, r2⟩
          rw [hrc] at h2
          cases r2 with
          | error e => simpa [recurseChildren, hfe, hrc] using h2
          | ok more => simpa [recurseChildren, hfe, hrc] using h2

/-- Any state predicate preserved by `fetch` is preserved by `check_links`. -/
theorem check_links_pres (w : World) (P : TState → Prop)
    (hf : ∀ st u, P st → P ((fetch w st u).1)) :
    ∀ fuel st url depth maxd visited, P st →
      P ((check_links w fuel st url depth maxd visited).1) := by
  intro fuel
  induction fuel with
  | zero => intro st url depth maxd visited h; simpa [check_links] using h
  | succ n ih =>
      intro st url depth maxd visited h
      by_cases hg : maxd ≤ depth
      · simpa [check_links, hg] using h
      · by_cases hv : url ∈ visited
        · simpa [check_links, hg, hv] using h
        · have h1 : P ((find_links w st url url depth maxd).1) :=
            find_links_pres w P hf st url url depth maxd h
          rcases hfl : find_links w st url url depth maxd with ⟨st1, opt, ls2, par⟩
          rw [hfl] at h1
          cases opt with
          | none => simpa [check_links, hg, hv, hfl] using h1
          | some linksWith =>
              have h2 := checkChildren_pres w P hf depth par linksWith st1 h1
              rcases hcc : checkChildren w depth par st1 linksWith with ⟨st2, r2⟩
              rw [hcc] at h2
              cases r2 with
              | error e => simpa [check_links, hg, hv, hfl, hcc] using h2
              | ok entries =>
                  have h3 := recurseChildren_pres P
                    (fun st visited l => check_links w n st l (depth + 1) maxd visited)
                    (fun st v l hp => ih st l (depth + 1) maxd v hp)
                    linksWith st2 (visited ++ [url]) h2
                  rcases hrc : recurseChildren
                      (fun st visited l => check_links w n st l (depth + 1) maxd visited)
                      st2 (visited ++ [url]) linksWith with ⟨st3, v3, r3⟩
                  rw [hrc] at h3
                  cases r3 with
                  | error e => simpa [check_links, hg, hv, hfl, hcc, hrc] using h3
                  | ok more => simpa [check_links, hg, hv, hfl, hcc, hrc] using h3

/-- Any state predicate preserved by `fetch` is preserved by the whole
`main` seed loop. -/
theorem runMain_pres (w : World) (P : TState → Prop)
    (hf : ∀ st u, P st → P ((fetch w st u).1)) (fuel maxd : Nat) :
    ∀ urls st, P st → P ((runMain w fuel maxd st urls).1) := by
  intro urls
  induction urls with
  | nil => intro st h; simpa [runMain] using h
  | cons url rest ih =>
      intro st h
      have h1 : P ((check_links w fuel st url 0 maxd []).1) :=
        check_links_pres w P hf fuel st url 0 maxd [] h
      rcases hcl : check_links w fuel st url 0 maxd [] with ⟨st1, v1, r1⟩
      rw [hcl] at h1
      cases r1 with
      | error e => simpa [runMain, hcl] using h1
      | ok es =>
          have h2 := ih st1 h1
          rcases hrm : runMain w fuel maxd st1 rest with ⟨st2, r2⟩
          rw [hrm] at h2
          cases r2 with
          | error e => simpa [runMain, hcl, hrm] using h2
          | ok out => simpa [runMain, hcl, hrm] using h2

/-- Membership after a `setA` update: the element was already present or is
the new binding. -/
theorem setA_mem {α : Type} :
    ∀ (m : List (String × α)) (k : String) (v : α) q, q ∈ setA m k v → q ∈ m ∨ q = (k, v) := by
  intro m k v
  induction m with
  | nil => intro q hq; simp [setA] at hq; simp [hq]
  | cons p rest ih =>
      obtain ⟨a, b⟩ := p
      intro q hq
      by_cases ha : a = k
      · simp [setA, ha] at hq
        rcases hq with hq | hq
        · right; rw [hq]
        · left; simp [hq]
      · simp [setA, ha] at hq
        rcases hq with hq | hq
        · left; simp [hq]
        · rcases ih q hq with h | h
          · left; simp [h]
          · right; exact h

/-- Instrumentation invariant of `testurl.py`: every URL has at most one
logged network attempt, and every attempted URL has a `scanned_urls` entry. -/
def TInv (st : TState) : Prop :=
  (∀ u, st.attempts.count u ≤ 1) ∧ ∀ u ∈ st.attempts, (lookupA st.scanned u).isSome

/-- On a network that never times out, one `fetch` call preserves `TInv`:
a new attempt is only logged for an uncached URL, which by the invariant was
never attempted before, and the call then caches it. -/
theorem fetch_TInv (w : World) (hw : noTimeout w) (st : TState) (url : String)
    (h : TInv st) : TInv ((fetch w st url).1) := by
  rcases fetch_cases w st url with ⟨r, _, he⟩ | ⟨m, _, hn, _⟩ | ⟨a, c, hl, he⟩
  · rw [he]; exact h
  · exact absurd hn (hw url (st.attempts.count url) m)
  · rw [he]
    obtain ⟨h1, h2⟩ := h
    have hnot : url ∉ st.attempts := by
      intro hmem
      have hsome := h2 url hmem
      rw [hl] at hsome
      simp at hsome
    refine ⟨?_, ?_⟩
    · intro u
      by_cases hu : u = url
      · subst hu
        have hz : st.attempts.count u = 0 := List.count_eq_zero.mpr hnot
        simp [List.count_append, hz]
      · have hz : List.count u [url] = 0 := by
          apply List.count_eq_zero.mpr
          simp [hu]
        calc (st.attempts ++ [url]).count u = st.attempts.count u + List.count u [url] :=
              List.count_append u st.attempts [url]
          _ = st.attempts.count u := by simp [hz]
          _ ≤ 1 := h1 u
    · intro u hu
      rcases List.mem_append.mp hu with hu1 | hu2
      · exact lookupA_setA_isSome _ _ _ _ (h2 u hu1)
      · have heq : u = url := by simpa using hu2
        subst heq
        simp [lookupA_setA_self]

/-- On a network that never times out, a whole `testurl.main` run starting
from an empty cache fetches every URL at most once. -/
theorem runMain_at_most_once (w : World) (hw : noTimeout w) (fuel maxd : Nat)
    (urls : List String) (u : String) :
    ((runMain w fuel maxd initT urls).1).attempts.count u ≤ 1 :=
  (runMain_pres w TInv (fun st v h => fetch_TInv w hw st v h) fuel maxd urls initT
    ⟨fun v => by simp [initT], fun v hv => by simp [initT] at hv⟩).1 u

/-- State invariant: the middle component of every cached result tuple is
the stored URL string (`result[1]` is always a `str`, never an `int`). -/
def ScannedStr (st : TState) : Prop :=
  ∀ p ∈ st.scanned, ∃ s, p.2.2.1 = PyVal.pstr s

/-- One `fetch` call preserves `ScannedStr`: every tuple it stores has the
URL string in position 1. -/
theorem fetch_ScannedStr (w : World) (st : TState) (url : String)
    (h : ScannedStr st) : ScannedStr ((fetch w st url).1) := by
  rcases fetch_cases w st url with ⟨r, _, he⟩ | ⟨m, _, _, he⟩ | ⟨a, c, _, he⟩
  · rw [he]; exact h
  · rw [he]; exact h
  · rw [he]
    intro p hp
    rcases setA_mem _ _ _ p hp with hin | heq
    · exact h p hin
    · subst heq; exact ⟨url, rfl⟩

/-- State invariant for the warm cache: a URL that is cached and has never
been attempted stays cached and unattempted (the cache hit short-circuits
every fetch of it). -/
def CacheKeeps (u : String) (st : TState) : Prop :=
  (lookupA st.scanned u).isSome ∧ u ∉ st.attempts

/-- One `fetch` call preserves `CacheKeeps u`: only uncached URLs are ever
attempted, and `u` is cached. -/
theorem fetch_CacheKeeps (w : World) (st : TState) (url u : String)
    (h : CacheKeeps u st) : CacheKeeps u ((fetch w st url).1) := by
  obtain ⟨hs, ha⟩ := h
  rcases fetch_cases w st url with ⟨r, _, he⟩ | ⟨m, hl, _, he⟩ | ⟨a, c, hl, he⟩
  · rw [he]; exact ⟨hs, ha⟩
  · rw [he]
    have hne : u ≠ url := by
      intro hh
      rw [hh, hl] at hs
      simp at hs
    refine ⟨hs, ?_⟩
    intro hmem
    rcases List.mem_append.mp hmem with h1 | h2
    · exact ha h1
    · exact hne (by simpa using h2)
  · rw [he]
    have hne : u ≠ url := by
      intro hh
      rw [hh, hl] at hs
      simp at hs
    refine ⟨lookupA_setA_isSome _ _ _ _ hs, ?_⟩
    intro hmem
    rcases List.mem_append.mp hmem with h1 | h2
    · exact ha h1
    · exact hne (by simpa using h2)

/-- On a network that never times out, the direct child-check loop cannot
raise: every `fetch` completes and is caught-or-recorded. -/
theorem checkChildren_ok (w : World) (hw : noTimeout w) (depth : Nat) (parent : Option String) :
    ∀ ls st, ∃ st' es, checkChildren w depth parent st ls = (st', .ok es) := by
  intro ls
  induction ls with
  | nil => intro st; exact ⟨st, [], rfl⟩
  | cons l rest ih =>
      intro st
      rcases fetch_cases w st l with ⟨r, _, he⟩ | ⟨m, _, hn, _⟩ | ⟨a, c, _, he⟩
      · obtain ⟨aa, bb, cc⟩ := r
        obtain ⟨st2, es, h2⟩ := ih st
        cases cc with
        | some msg =>
            exact ⟨st2, (depth + 1, parent, l, msg) :: es, by simp [checkChildren, he, h2]⟩
        | none => exact ⟨st2, es, by simp [checkChildren, he, h2]⟩
      · exact absurd hn (hw l _ m)
      · obtain ⟨st2, es, h2⟩ := ih ⟨setA st.scanned l (a, PyVal.pstr l, c), st.attempts ++ [l]⟩
        cases c with
        | some msg =>
            exact ⟨st2, (depth + 1, parent, l, msg) :: es, by simp [checkChildren, he, h2]⟩
        | none => exact ⟨st2, es, by simp [checkChildren, he, h2]⟩

/-- If the loop body never raises, the recursive child loop never raises. -/
theorem recurseChildren_ok
    (f : TState → List String → String → TState × List String × Except String (List Entry))
    (hf : ∀ st v l, ∃ st' v' es, f st v l = (st', v', .ok es)) :
    ∀ ls st v, ∃ st' v' es, recurseChildren f st v ls = (st', v', .ok es) := by
  intro ls
  induction ls with
  | nil => intro st v; exact ⟨st, v, [], rfl⟩
  | cons l rest ih =>
      intro st v
      obtain ⟨st1, v1, es1, h1⟩ := hf st v l
      obtain ⟨st2, v2, es2, h2⟩ := ih st1 v1
      exact ⟨st2, v2, es1 ++ es2, by simp [recurseChildren, h1, h2]⟩

/-- On a network that never times out, `check_links` always returns
normally: no exception surfaces to its caller. -/
theorem check_links_ok (w : World) (hw : noTimeout w) :
    ∀ fuel st url depth maxd visited,
      ∃ st' v' es, check_links w fuel st url depth maxd visited = (st', v', .ok es) := by
  intro fuel
  induction fuel with
  | zero => intro st url depth maxd visited; exact ⟨st, visited, [], rfl⟩
  | succ n ih =>
      intro st url depth maxd visited
      by_cases hg : maxd ≤ depth
      · exact ⟨st, visited, [], by simp [check_links, hg]⟩
      · by_cases hv : url ∈ visited
        · exact ⟨st, visited, [], by simp [check_links, hg, hv]⟩
        · rcases hfl : find_links w st url url depth maxd with ⟨st1, opt, ls2, par⟩
          cases opt with
          | none => exact ⟨st1, visited ++ [url], [], by simp [check_links, hg, hv, hfl]⟩
          | some linksWith =>
              obtain ⟨st2, es, hcc⟩ := checkChildren_ok w hw depth par linksWith st1
              obtain ⟨st3, v3, more, hrc⟩ := recurseChildren_ok
                (fun st visited l => check_links w n st l (depth + 1) maxd visited)
                (fun st v l => ih st l (depth + 1) maxd v)
                linksWith st2 (visited ++ [url])
              exact ⟨st3, v3, es ++ more, by simp [check_links, hg, hv, hfl, hcc, hrc]⟩

/-- Every entry the direct child-check loop produces carries `depth + 1`. -/
theorem checkChildren_entries (w : World) (depth : Nat) (parent : Option String) :
    ∀ ls st st' es, checkChildren w depth parent st ls = (st', .ok es) →
      ∀ e ∈ es, e.1 = depth + 1 := by
  intro ls
  induction ls with
  | nil =>
      intro st st' es heq e he
      simp [checkChildren] at heq
      rw [heq.2] at he
      simp at he
  | cons l rest ih =>
      intro st st' es heq e he
      rcases hfe : fetch w st l with ⟨st1, r1⟩
      cases r1 with
      | error err => simp [checkChildren, hfe] at heq
      | ok res =>
          obtain ⟨a, b, c⟩ := res
          rcases hcc : checkChildren w depth parent st1 rest with ⟨st2, r2⟩
          cases r2 with
          | error err => simp [checkChildren, hfe, hcc] at heq
          | ok es2 =>
              cases c with
              | some m =>
                  simp [checkChildren, hfe, hcc] at heq
                  rw [← heq.2] at he
                  rcases List.mem_cons.mp he with h | h
                  · rw [h]
                  · exact ih st1 st2 es2 hcc e h
              | none =>
                  simp [checkChildren, hfe, hcc] at heq
                  rw [← heq.2] at he
                  exact ih st1 st2 es2 hcc e he

/-- An entry property holding for every normal result of the loop body
holds for every entry of the recursive child loop. -/
theorem recurseChildren_entries (Q : Entry → Prop)
    (f : TState → List String → String → TState × List String × Except String (List Entry))
    (hf : ∀ st v l st' v' es, f st v l = (st', v', .ok es) → ∀ e ∈ es, Q e) :
    ∀ ls st v st' v' es, recurseChildren f st v ls = (st', v', .ok es) → ∀ e ∈ es, Q e := by
  intro ls
  induction ls with
  | nil =>
      intro st v st' v' es heq e he
      simp [recurseChildren] at heq
      rw [heq.2.2] at he
      simp at he
  | cons l rest ih =>
      intro st v st' v' es heq e he
      rcases hfe : f st v l with ⟨st1, v1, r1⟩
      cases r1 with
      | error err => simp [recurseChildren, hfe] at heq
      | ok es1 =>
          rcases hrc : recurseChildren f st1 v1 rest with ⟨st2, v2, r2⟩
          cases r2 with
          | error err => simp [recurseChildren, hfe, hrc] at heq
          | ok es2 =>
              simp [recurseChildren, hfe, hrc] at heq
              rw [← heq.2.2] at he
              rcases List.mem_append.mp he with h | h
              · exact hf st v l st1 v1 es1 hfe e h
              · exact ih st1 v1 st2 v2 es2 hrc e h

/-- No entry of a normal `check_links` result records a depth beyond the
`MAX_DEPTH` bound: entries are appended at `depth + 1` only below the bound. -/
theorem check_links_entry_depth (w : World) :
    ∀ fuel st url depth maxd visited st' v' es,
      check_links w fuel st url depth maxd visited = (st', v', .ok es) →
      ∀ e ∈ es, e.1 ≤ maxd := by
  intro fuel
  induction fuel with
  | zero =>
      intro st url depth maxd visited st' v' es heq e he
      simp [check_links] at heq
      rw [heq.2.2] at he
      simp at he
  | succ n ih =>
      intro st url depth maxd visited st' v' es heq e he
      by_cases hg : maxd ≤ depth
      · simp [check_links, hg] at heq
        rw [heq.2.2] at he
        simp at he
      · by_cases hv : url ∈ visited
        · simp [check_links, hg, hv] at heq
          rw [heq.2.2] at he
          simp at he
        · rcases hfl : find_links w st url url depth maxd with ⟨st1, opt, ls2, par⟩
          cases opt with
          | none =>
              simp [check_links, hg, hv, hfl] at heq
              rw [heq.2.2] at he
              simp at he
          | some linksWith =>
              rcases hcc : checkChildren w depth par st1 linksWith with ⟨st2, r2⟩
              cases r2 with
              | error err => simp [check_links, hg, hv, hfl, hcc] at heq
              | ok entries =>
                  rcases hrc : recurseChildren
                      (fun st visited l => check_links w n st l (depth + 1) maxd visited)
                      st2 (visited ++ [url]) linksWith with ⟨st3, v3, r3⟩
                  cases r3 with
                  | error err => simp [check_links, hg, hv, hfl, hcc, hrc] at heq
                  | ok more =>
                      simp [check_links, hg, hv, hfl, hcc, hrc] at heq
                      rw [← heq.2.2] at he
                      rcases List.mem_append.mp he with h | h
                      · have hcd := checkChildren_entries w depth par linksWith st1 st2 entries hcc e h
                        omega
                      · exact recurseChildren_entries (fun e => e.1 ≤ maxd)
                          (fun st visited l => check_links w n st l (depth + 1) maxd visited)
                          (fun st v l st' v' es hq => ih st l (depth + 1) maxd v st' v' es hq)
                          linksWith st2 (visited ++ [url]) st3 v3 more hrc e h

end Testurl

/-! ### Generic lemmas about `chklink.py` -/

namespace Chklink

/-- Any state predicate preserved by the continuation is preserved by the
child loop. -/
theorem processKids_pres (P : KState → Prop) (f : KState → String → KState) (url : String)
    (hf : ∀ st u, P st → P (f st u)) :
    ∀ raws st, P st → P (processKids f url st raws) := by
  intro raws
  induction raws with
  | nil => intro st h; simpa [processKids] using h
  | cons raw rest ih =>
      intro st h
      by_cases hr : follows raw
      · simpa [processKids, hr] using ih _ (hf st _ h)
      · simpa [processKids, hr] using ih st h

/-- Instrumentation invariant of `chklink.py`: every URL has at most one
logged network attempt, and every attempted URL is a `visited_links` key. -/
def KInv (st : KState) : Prop :=
  (∀ u, st.attempts.count u ≤ 1) ∧ ∀ u ∈ st.attempts, (lookupA st.visited_links u).isSome

/-- Overwriting a `visited_links` entry preserves the invariant. -/
theorem KInv_setV (st : KState) (k : String) (v : PyVal) (h : KInv st) :
    KInv { st with visited_links := setA st.visited_links k v } :=
  ⟨h.1, fun u hu => lookupA_setA_isSome _ _ _ _ (h.2 u hu)⟩

/-- Writing an `error_links` entry preserves the invariant. -/
theorem KInv_setE (st : KState) (k : String) (v : KErr) (h : KInv st) :
    KInv { st with error_links := setA st.error_links k v } :=
  ⟨h.1, h.2⟩

/-- One `check_link` call preserves `KInv`: a network attempt is only made
after the visited check fails, and the URL is marked visited (with no
suspension point in between) before the request is issued. -/
theorem check_link_KInv (w : World) :
    ∀ fuel st url depth retries maxd, KInv st →
      KInv (check_link w fuel st url depth retries maxd) := by
  intro fuel
  induction fuel with
  | zero => intro st url depth retries maxd h; simpa [check_link] using h
  | succ n ih =>
      intro st url depth retries maxd h
      by_cases hv : (lookupA st.visited_links url).isSome
      · simpa [check_link, hv] using h
      · have hl : lookupA st.visited_links url = none := by
          cases hq : lookupA st.visited_links url
          · rfl
          · rw [hq] at hv; simp at hv
        have hnot : url ∉ st.attempts := by
          intro hmem
          have := h.2 url hmem
          rw [hl] at this
          simp at this
        have hB : KInv ⟨setA st.visited_links url (.pstr "Processing"),
            st.error_links, st.attempts ++ [url]⟩ := by
          refine ⟨?_, ?_⟩
          · intro u
            by_cases hu : u = url
            · subst hu
              have hz : st.attempts.count u = 0 := List.count_eq_zero.mpr hnot
              simp [List.count_append, hz]
            · have hz : List.count u [url] = 0 := by
                apply List.count_eq_zero.mpr
                simp [hu]
              calc (st.attempts ++ [url]).count u
                  = st.attempts.count u + List.count u [url] :=
                    List.count_append u st.attempts [url]
                _ = st.attempts.count u := by simp [hz]
                _ ≤ 1 := h.1 u
          · intro u hu
            rcases List.mem_append.mp hu with hu1 | hu2
            · exact lookupA_setA_isSome _ _ _ _ (h.2 u hu1)
            · have heq : u = url := by simpa using hu2
              subst heq
              simp [lookupA_setA_self]
        cases hn : w.net url (st.attempts.count url) with
        | response status ct raw text =>
            by_cases hh : status == 200 && strStarts ct "text/html"
            · cases hlk : w.links text with
              | ok raws =>
                  have harm := processKids_pres KInv
                    (fun st u => check_link w n st u (depth + 1) retries maxd) url
                    (fun st u hp => ih st u (depth + 1) retries maxd hp) raws
                    _ (KInv_setV _ url (.pint status) hB)
                  by_cases hd : maxd ≤ depth
                  · simpa [check_link, hv, hn, hh, hlk, hd] using KInv_setV _ url _ harm
                  · simpa [check_link, hv, hn, hh, hlk, hd] using harm
              | error e =>
                  have harm := KInv_setV _ url (.pstr e)
                    (KInv_setE _ url ⟨depth, url, url, e⟩
                      (KInv_setV _ url (.pint status) hB))
                  by_cases hd : maxd ≤ depth
                  · simpa [check_link, hv, hn, hh, hlk, hd] using KInv_setV _ url _ harm
                  · simpa [check_link, hv, hn, hh, hlk, hd] using harm
            · have harm := KInv_setV _ url (.pint status) hB
              by_cases hd : maxd ≤ depth
              · simpa [check_link, hv, hn, hh, hd] using KInv_setV _ url _ harm
              · simpa [check_link, hv, hn, hh, hd] using harm
        | timeout m =>
            by_cases hr : 0 < retries
            · have harm := ih _ url depth (retries - 1) maxd hB
              by_cases hd : maxd ≤ depth
              · simpa [check_link, hv, hn, hr, hd] using KInv_setV _ url _ harm
              · simpa [check_link, hv, hn, hr, hd] using harm
            · have harm := KInv_setV _ url (.pstr "Timeout Error")
                (KInv_setE _ url ⟨depth, url, url, "Timeout Error"⟩ hB)
              by_cases hd : maxd ≤ depth
              · simpa [check_link, hv, hn, hr, hd] using KInv_setV _ url _ harm
              · simpa [check_link, hv, hn, hr, hd] using harm
        | clientError m =>
            have harm := KInv_setV _ url (.pstr m)
              (KInv_setE _ url ⟨depth, url, url, m⟩ hB)
            by_cases hd : maxd ≤ depth
            · simpa [check_link, hv, hn, hd] using KInv_setV _ url _ harm
            · simpa [check_link, hv, hn, hd] using harm

/-- A whole `chklink.main` run fetches every URL at most once, whatever the
network, parser, seed list and depth bound do. -/
theorem runChkMain_at_most_once (w : World) (fuel maxd : Nat) (seeds : List String)
    (u : String) : (runChkMain w fuel maxd seeds).attempts.count u ≤ 1 := by
  have hfold : ∀ (l : List String) (st : KState), KInv st →
      KInv (l.foldl (fun st u => check_link w fuel st u 0 3 maxd) st) := by
    intro l
    induction l with
    | nil => intro st h; simpa using h
    | cons a rest ih => intro st h; exact ih _ (check_link_KInv w fuel st a 0 3 maxd h)
  exact (hfold seeds initK ⟨fun v => by simp [initK], fun v hv => by simp [initK] at hv⟩).1 u

/-- Whenever `check_link` actually visits a URL at `depth ≥ max_depth`, the
`finally` clause leaves `"Depth Limit Reached"` as its recorded outcome —
but only after the URL has been processed (and fetched) normally. -/
theorem check_link_depth_limit (w : World) (n : Nat) (st : KState) (url : String)
    (depth retries maxd : Nat) (hl : lookupA st.visited_links url = none)
    (hd : maxd ≤ depth) :
    lookupA (check_link w (n + 1) st url depth retries maxd).visited_links url
      = some (.pstr "Depth Limit Reached") := by
  simp only [check_link, hl, Option.isSome_none, Bool.false_eq_true, if_false, hd, if_true]
  exact lookupA_setA_self _ _ _

end Chklink

/-! ### Further helpers for the claim theorems -/

/-- Definition following the spec's words (§4.1 `isCrawlable`), for
refinement comparison with the filters actually implemented: reject a
reference iff it is empty, anchor-only, `javascript:`, `mailto:`, or
`data:image`. -/
def specIsCrawlable (ref : String) : Bool :=
  !(ref == "" || strStarts ref "#" || strStarts ref "javascript:"
      || strStarts ref "mailto:" || strStarts ref "data:image")

/-- The `worldA` network never times out. -/
theorem noTimeout_worldA : noTimeout worldA := by
  intro u k m
  simp only [worldA, netA]
  split_ifs <;> simp

/-- The full result of the 404-scenario run of `testurl.check_links`
(seed linking to one 200 page and one 404 page, `maxDepth = 2`). -/
def scenarioRun : Testurl.TState × List String × Except String (List Entry) :=
  Testurl.check_links worldA 10 Testurl.initT "https://example.test/" 0 2 []

/-- The child loop of `chklink.check_link` visits exactly the references
that pass `follows`, each joined against the current page URL, in order. -/
theorem processKids_foldl (f : Chklink.KState → String → Chklink.KState) (url : String) :
    ∀ (raws : List String) (st : Chklink.KState),
      Chklink.processKids f url st raws
        = ((raws.filter Chklink.follows).map (modeledUrljoin url)).foldl f st := by
  intro raws
  induction raws with
  | nil => intro st; simp [Chklink.processKids]
  | cons raw rest ih =>
      intro st
      by_cases hr : Chklink.follows raw
      · simp [Chklink.processKids, hr, List.filter_cons, ih]
      · simp [Chklink.processKids, hr, List.filter_cons, ih]

/-- World whose seed page carries an anchor reference, an empty reference,
a mail reference and a relative reference. -/
def worldJ : World :=
  ⟨fun u _ => if u == "https://j.test/" then .response 200 "text/html" [6] "JB"
     else .clientError "no route",
   fun body => if body == "JB" then .ok ["#sec", "", "mailto:x@y", "page2"] else .ok [],
   fun enc raw => if enc == "utf-8" && raw == [6] then some "JB" else none⟩

/-! ### Claim theorems -/

/-- C1 (counterexample): in `testurl.py` a URL is *not* always fetched at
most once per run.  When seed one's own fetch times out, the exception is
caught inside `find_links` but nothing is cached, so when seed two's page
links back to seed one, the direct child check issues a second network
fetch of the same URL — the run completes normally with two logged attempts
for `https://one.test/`. -/
theorem timeout_allows_refetch_counterexample :
    (Testurl.runMain worldB 10 3 Testurl.initT
        ["https://one.test/", "https://two.test/"]).1.attempts.count "https://one.test/" = 2
    ∧ (Testurl.runMain worldB 10 3 Testurl.initT
        ["https://one.test/", "https://two.test/"]).2
      = .ok [("https://one.test/", []), ("https://two.test/", [])] := by decide

/-- C1 (amended): `chklink.py` fetches every URL at most once per run under
any network, parser, seed list and depth bound; `testurl.py` fetches every
URL at most once per run provided no fetch times out (every completed fetch
is cached and the cache short-circuits later visits; only a timed-out fetch
caches nothing). -/
theorem fetch_at_most_once_amended :
    (∀ (w : World) (fuel maxd : Nat) (seeds : List String) (u : String),
        (Chklink.runChkMain w fuel maxd seeds).attempts.count u ≤ 1)
    ∧ (∀ w : World, noTimeout w → ∀ (fuel maxd : Nat) (urls : List String) (u : String),
        ((Testurl.runMain w fuel maxd Testurl.initT urls).1).attempts.count u ≤ 1) :=
  ⟨fun w fuel maxd seeds u => Chklink.runChkMain_at_most_once w fuel maxd seeds u,
   fun w hw fuel maxd urls u => Testurl.runMain_at_most_once w hw fuel maxd urls u⟩

/-- Witness for C1's amended theorem at a concrete no-timeout world. -/
theorem fetch_at_most_once_amended_witness :
    noTimeout worldA
    ∧ (Chklink.runChkMain worldA 3 2 ["https://example.test/"]).attempts.count
        "https://example.test/" ≤ 1
    ∧ ((Testurl.runMain worldA 3 2 Testurl.initT ["https://example.test/"]).1).attempts.count
        "https://example.test/a" ≤ 1 :=
  ⟨noTimeout_worldA,
   fetch_at_most_once_amended.1 worldA 3 2 ["https://example.test/"] "https://example.test/",
   fetch_at_most_once_amended.2 worldA noTimeout_worldA 3 2 ["https://example.test/"]
     "https://example.test/a"⟩

/-- C2 (counterexample): with `max_depth = 2`, a `chklink.py` run over a
four-deep same-origin chain fetches the URLs visited at depth 2 and depth 3
(the depth bound never prevents a fetch or the recursion) and records an
`error_links` entry whose `掃描層數` is `3 > 2`. -/
theorem depth_limit_not_enforced_counterexample :
    (Chklink.check_link worldC 20 Chklink.initK "http://s.test/" 0 3 2).attempts
      = ["http://s.test/", "http://s.test/a", "http://s.test/b", "http://s.test/c"]
    ∧ (Chklink.check_link worldC 20 Chklink.initK "http://s.test/" 0 3 2).error_links
      = [("http://s.test/c",
          ⟨3, "http://s.test/c", "http://s.test/c", "boom"⟩)] := by decide

/-- C2 (amended): in `testurl.py` no broken-link entry of a normal
`check_links` run records a depth beyond `MAX_DEPTH`; in `chklink.py` a URL
first visited at `depth ≥ max_depth` is still processed (and fetched), and
only afterwards does the `finally` clause overwrite its `visited_links`
record with `"Depth Limit Reached"`. -/
theorem depth_limit_amended :
    (∀ (w : World) (fuel : Nat) (st : Testurl.TState) (url : String)
        (depth maxd : Nat) (visited : List String) (st' : Testurl.TState)
        (v' : List String) (es : List Entry),
        Testurl.check_links w fuel st url depth maxd visited = (st', v', .ok es) →
        ∀ e ∈ es, e.1 ≤ maxd)
    ∧ (∀ (w : World) (n : Nat) (st : Chklink.KState) (url : String)
        (depth retries maxd : Nat),
        lookupA st.visited_links url = none → maxd ≤ depth →
        lookupA (Chklink.check_link w (n + 1) st url depth retries maxd).visited_links url
          = some (.pstr "Depth Limit Reached")) :=
  ⟨fun w fuel st url depth maxd visited st' v' es h =>
      Testurl.check_links_entry_depth w fuel st url depth maxd visited st' v' es h,
   fun w n st url depth retries maxd h1 h2 =>
      Chklink.check_link_depth_limit w n st url depth retries maxd h1 h2⟩

/-- Witness for C2's amended theorem: the scenario run's single entry has
depth `1 ≤ 2`, and a URL visited at depth `2 = max_depth` ends recorded as
`"Depth Limit Reached"`. -/
theorem depth_limit_amended_witness :
    (1 : Nat) ≤ 2
    ∧ lookupA (Chklink.check_link worldD 1 Chklink.initK "http://t.test/" 2 3 2).visited_links
        "http://t.test/" = some (.pstr "Depth Limit Reached") :=
  ⟨depth_limit_amended.1 worldA 10 Testurl.initT "https://example.test/" 0 2 []
      scenarioRun.1 scenarioRun.2.1
      [(1, some "https://example.test/", "https://example.test/missing", "HTTP 狀態 404")]
      (by decide)
      (1, some "https://example.test/", "https://example.test/missing", "HTTP 狀態 404")
      (by decide),
   depth_limit_amended.2 worldD 0 Chklink.initK "http://t.test/" 2 3 2 (by decide) (by decide)⟩

/-- C3 (counterexample): in the spec's 404 scenario the report's sole entry
carries the reason string `"HTTP 狀態 404"` produced by `testurl.fetch`,
not the claimed `"HTTP 404"`. -/
theorem broken_link_reason_counterexample :
    scenarioRun.2.2 = .ok [(1, some "https://example.test/",
      "https://example.test/missing", "HTTP 狀態 404")]
    ∧ "HTTP 狀態 404" ≠ "HTTP 404" := by decide

/-- C3 (amended): in `testurl.py` the 404 scenario yields exactly one entry
`{depth 1, parent seed, target missing, reason "HTTP 狀態 404"}` (one error
in total); in `chklink.py` an HTTP-404 child yields *no* error entry at all
— only its status is recorded in `visited_links`. -/
theorem broken_link_scenario_amended :
    scenarioRun.2.2 = .ok [(1, some "https://example.test/",
      "https://example.test/missing", "HTTP 狀態 404")]
    ∧ (Chklink.check_link worldK 10 Chklink.initK "http://s3.test/" 0 3 3).error_links = []
    ∧ lookupA (Chklink.check_link worldK 10 Chklink.initK "http://s3.test/" 0 3 3).visited_links
        "http://s3.test/missing" = some (.pint 404) := by decide

/-- C4 (code bug): a fetcher stub that times out once (`k = 1 < retries = 3`)
and would then succeed nevertheless produces exactly **one** underlying
fetch attempt — the recursive retry call hits the visited check
(`visited_links[url] = "Processing"`) and returns immediately — so the URL
is left marked `"Processing"` forever: neither a `Success` nor a finalized
`Timeout` outcome, and no error entry. -/
theorem retry_noop_evaluation :
    (Chklink.check_link worldD 10 Chklink.initK "http://t.test/" 0 3 2).attempts
      = ["http://t.test/"]
    ∧ lookupA (Chklink.check_link worldD 10 Chklink.initK "http://t.test/" 0 3 2).visited_links
        "http://t.test/" = some (.pstr "Processing")
    ∧ (Chklink.check_link worldD 10 Chklink.initK "http://t.test/" 0 3 2).error_links = []
    ∧ worldD.net "http://t.test/" 0 = .timeout ""
    ∧ worldD.net "http://t.test/" 1 = .response 200 "text/html" [] "" := by decide

/-- C5 (confirmed): on a 200 response `testurl.fetch` tries `utf-8`, `gbk`,
`big5` in order; the first encoding that decodes wins and yields the
success tuple with the decoded text, and only when all three fail is the
outcome the decode-failure tuple. -/
theorem fetch_decode_policy (w : World) (st : Testurl.TState) (url : String)
    (ct : String) (raw : List Nat) (text : String)
    (hmiss : lookupA st.scanned url = none)
    (hnet : w.net url (st.attempts.count url) = .response 200 ct raw text) :
    (∀ t, w.codec "utf-8" raw = some t →
        (Testurl.fetch w st url).2 = .ok (some t, .pstr url, none))
    ∧ (w.codec "utf-8" raw = none → ∀ t, w.codec "gbk" raw = some t →
        (Testurl.fetch w st url).2 = .ok (some t, .pstr url, none))
    ∧ (w.codec "utf-8" raw = none → w.codec "gbk" raw = none →
        ∀ t, w.codec "big5" raw = some t →
        (Testurl.fetch w st url).2 = .ok (some t, .pstr url, none))
    ∧ (w.codec "utf-8" raw = none → w.codec "gbk" raw = none →
        w.codec "big5" raw = none →
        (Testurl.fetch w st url).2 = .ok (none, .pstr url, some "無法解碼內容")) := by
  refine ⟨?_, ?_, ?_, ?_⟩
  · intro t h1
    simp [Testurl.fetch, hmiss, hnet, Testurl.tryDecode, Testurl.encodingCandidates, h1]
  · intro h1 t h2
    simp [Testurl.fetch, hmiss, hnet, Testurl.tryDecode, Testurl.encodingCandidates, h1, h2]
  · intro h1 h2 t h3
    simp [Testurl.fetch, hmiss, hnet, Testurl.tryDecode, Testurl.encodingCandidates, h1, h2, h3]
  · intro h1 h2 h3
    simp [Testurl.fetch, hmiss, hnet, Testurl.tryDecode, Testurl.encodingCandidates, h1, h2, h3]

/-- Witness for C5 at a concrete world whose body bytes fail UTF-8 but
decode under GBK. -/
theorem fetch_decode_policy_witness :
    worldH.codec "utf-8" [255] = none
    ∧ worldH.codec "gbk" [255] = some "G"
    ∧ (Testurl.fetch worldH Testurl.initT "http://enc.test/").2
        = .ok (some "G", .pstr "http://enc.test/", none) :=
  ⟨by decide, by decide,
   (fetch_decode_policy worldH Testurl.initT "http://enc.test/" "text/html" [255] ""
     (by decide) (by decide)).2.1 (by decide) "G" (by decide)⟩

/-- C6 (code bug): cross-origin URLs are *not* treated as fetch-once leaf
nodes.  In `testurl.py` the recursive `check_links` passes each child as
its own `base_url`, so `find_links`' cross-origin branch never fires from
it: the cross-origin page `https://other.test/x` is expanded and the broken
link found *on* it appears in the report.  In `chklink.py` absolute
(`http`-prefixed) references are filtered out before any fetch, so a
cross-origin URL is not fetched at all. -/
theorem cross_origin_divergence_evaluation :
    (Testurl.check_links worldE 10 Testurl.initT "https://seed.test/" 0 3 []).2.2
      = .ok [(2, some "https://other.test/x", "https://other.test/bad", "HTTP 狀態 404")]
    ∧ modeledNetloc "https://other.test/x" ≠ modeledNetloc "https://seed.test/"
    ∧ (Chklink.check_link worldE 10 Chklink.initK "http://k.test/" 0 3 2).attempts
      = ["http://k.test/"] := by decide

/-- C7 (counterexample): the implemented filters do not reject exactly the
spec's list.  `chklink.py` additionally rejects every reference starting
with `http` (so absolute URLs are never considered), and `testurl.py`
applies its prefix test to the *resolved* URL, so an empty reference —
which the spec's filter rejects — resolves to the base URL and passes. -/
theorem crawlable_filter_counterexample :
    specIsCrawlable "http://elsewhere.test/" = true
    ∧ Chklink.follows "http://elsewhere.test/" = false
    ∧ specIsCrawlable "" = false
    ∧ Testurl.crawlable (modeledUrljoin "https://example.test/" "") = true := by decide

/-- C7 (amended): `chklink.check_link` recurses exactly into the raw
references that are nonempty and do not start with `http`, `#`,
`javascript`, `mailto` or `data:image`, each joined against the page URL;
`testurl.find_links` applies its prefix filter (`#`, `javascript`,
`mailto`, `data:image`, no colons) to the already-resolved URL, so anchor
and empty references resolve into same-page URLs and are kept while
`mailto:` references are filtered out. -/
theorem crawlable_filter_amended :
    (∀ (f : Chklink.KState → String → Chklink.KState) (url : String)
        (raws : List String) (st : Chklink.KState),
        Chklink.processKids f url st raws
          = ((raws.filter Chklink.follows).map (modeledUrljoin url)).foldl f st)
    ∧ (Testurl.find_links worldJ Testurl.initT "https://j.test/" "https://j.test/" 0 3).2
      = (some ["https://j.test/#sec", "https://j.test/", "https://j.test/page2"],
         ["mailto:x@y"], some "https://j.test/")
    ∧ Testurl.crawlable "javascript:void(0)" = false
    ∧ Testurl.crawlable "data:image/png;base64,AA" = false :=
  ⟨fun f url raws st => processKids_foldl f url raws st, by decide, by decide, by decide⟩

/-- C8 (counterexample): a timeout during the direct child check of
`testurl.check_links` is not caught anywhere in `check_links`, so the
exception surfaces to the caller of the top-level crawl. -/
theorem timeout_escapes_counterexample :
    (Testurl.check_links worldF 10 Testurl.initT "https://h.test/" 0 3 []).2.2
      = .error "to" := by decide

/-- C8 (amended): on a network that never times out, every per-URL failure
in `testurl.py` (HTTP error, decode failure, client error, parse error) is
local — `check_links` always returns normally — and sibling traversal
continues past a failing child, as the two-failing-siblings run shows. -/
theorem failures_local_amended :
    (∀ w : World, noTimeout w → ∀ (fuel : Nat) (st : Testurl.TState) (url : String)
        (depth maxd : Nat) (visited : List String),
        ∃ st' v' es, Testurl.check_links w fuel st url depth maxd visited = (st', v', .ok es))
    ∧ (Testurl.check_links worldI 10 Testurl.initT "https://i.test/" 0 3 []).2.2
      = .ok [(1, some "https://i.test/", "https://i.test/b1", "refused"),
             (1, some "https://i.test/", "https://i.test/b2", "HTTP 狀態 404")] :=
  ⟨fun w hw fuel st url depth maxd visited =>
      Testurl.check_links_ok w hw fuel st url depth maxd visited,
   by decide⟩

/-- Witness for C8's amended theorem at a concrete no-timeout world. -/
theorem failures_local_amended_witness :
    noTimeout worldA
    ∧ ∃ st' v' es, Testurl.check_links worldA 10 Testurl.initT "https://example.test/" 0 2 []
        = (st', v', .ok es) :=
  ⟨noTimeout_worldA,
   failures_local_amended.1 worldA noTimeout_worldA 10 Testurl.initT
     "https://example.test/" 0 2 []⟩

/-- C9 (counterexample): the warm cache is used implicitly, with no
configuration gate: starting a run from a state whose `scanned_urls` was
loaded from a previous run's file, the cached URL's first visit issues *no*
network fetch (the network of this world refuses every request, yet the run
succeeds). -/
theorem implicit_warm_cache_counterexample :
    (Testurl.runMain worldG 10 3 warmState ["https://warm.test/"]).1.attempts = []
    ∧ (Testurl.runMain worldG 10 3 warmState ["https://warm.test/"]).2
      = .ok [("https://warm.test/", [])]
    ∧ (lookupA warmState.scanned "https://warm.test/").isSome = true := by decide

/-- C9 (amended): `testurl.py` reads `scanned_urls.yaml` unconditionally at
startup and `fetch` consults it before the network, so any URL present in
the loaded cache is never fetched during the whole run; only URLs absent
from the cache are fetched. -/
theorem warm_cache_amended :
    ∀ (w : World) (fuel maxd : Nat) (urls : List String) (u : String)
      (st0 : Testurl.TState),
      (lookupA st0.scanned u).isSome → u ∉ st0.attempts →
      u ∉ ((Testurl.runMain w fuel maxd st0 urls).1).attempts :=
  fun w fuel maxd urls u st0 h1 h2 =>
    (Testurl.runMain_pres w (Testurl.CacheKeeps u)
      (fun st v h => Testurl.fetch_CacheKeeps w st v u h) fuel maxd urls st0 ⟨h1, h2⟩).2

/-- Witness for C9's amended theorem at the concrete warm-cache state. -/
theorem warm_cache_amended_witness :
    (lookupA warmState.scanned "https://warm.test/").isSome = true
    ∧ "https://warm.test/"
        ∉ ((Testurl.runMain worldG 10 3 warmState ["https://warm.test/"]).1).attempts :=
  ⟨by decide,
   warm_cache_amended worldG 10 3 ["https://warm.test/"] "https://warm.test/" warmState
     (by decide) (by decide)⟩

/-- C10 (confirmed): for every run of `testurl.main` from an empty cache,
the mapping persisted to `scanned_urls.yaml` is empty — the filter keeps
entries with `result[1] == 200`, but `fetch` always stores the URL string
in position 1, and a Python `str` never equals the `int` 200. -/
theorem persisted_valid_urls_empty (w : World) (fuel maxd : Nat) (urls : List String) :
    Testurl.validUrls ((Testurl.runMain w fuel maxd Testurl.initT urls).1).scanned = [] := by
  have h := Testurl.runMain_pres w Testurl.ScannedStr (Testurl.fetch_ScannedStr w)
    fuel maxd urls Testurl.initT (fun p hp => by simp [Testurl.initT] at hp)
  unfold Testurl.validUrls
  rw [List.filter_eq_nil_iff]
  intro p hp
  rcases h p hp with ⟨s, hs⟩
  simp [pyEq, hs]

end WebData
